import Mathlib

/-!
Verification of `tide-tracing-middleware` (`src/lib.rs`) against its
natural-language specification.

The embedding below translates the library's data model and operations into
Lean definitions:

* `FormatText` / `Format.new` — the compiled log-format token type and the
  format-string compiler (`Format::new`, lib.rs 284-337).  The Rust code drives
  the scan with the regex `%(\x7b([A-Za-z0-9\-_]+)\x7d([aioe]|xi|xo)|[atPrUsbTDMVQ]?)`
  over `captures_iter`; `scanAux` implements exactly that leftmost-first,
  non-overlapping scan directly (the regex crate uses leftmost-first
  alternation semantics, so the braced alternative is tried before the
  optional bare-letter class, and within the suffix group `[aioe]` is tried
  before `xi` before `xo`).  A panic (`unreachable!()`) is modelled as `none`.
  `scanAux` carries a fuel argument so that it is structurally recursive and
  computable by `rfl`; every step consumes at least one input character, so
  `length + 1` fuel (used by `Format.new`) always suffices.
* `FormatText.render_request` / `FormatText.render_response` /
  `FormatText.render` — the two resolution phases and the final render
  (lib.rs 420-546).  `OffsetDateTime` values are represented by the strings
  they format to (`nowStr`, `elapsedSec`, `elapsedMillis`); no claim depends
  on time arithmetic.
* `customRequestReplace` / `customResponseReplace` — the custom-field
  registry (`custom_request_replace` / `custom_response_replace`,
  lib.rs 142-199).  The returned `Bool` is `true` when the non-fatal
  "nonexistent label" diagnostic is reported.
* `Inner` / `handle` — the middleware entry point (`Middleware::handle`,
  lib.rs 231-273).  The `RegexSet` of exclusion patterns is abstracted as a
  predicate `String → Bool` (exclusion matching is outside the claims'
  algorithmic core); the tracing span plumbing is omitted (no claim touches
  it).
* `StreamLogState` / `streamStep` — the byte-counting body wrapper
  `StreamLog` (lib.rs 548-587) as a state machine: `read` events perform
  `poll_read`'s size update, `dispose` performs `PinnedDrop::drop`'s
  exactly-once emission.  The `live` flag models Rust ownership: drop is
  delivered at most once to a value, and events reaching an already-dropped
  stream are impossible, hence modelled as no-ops.
-/

namespace TideTracing

/-- Inbound request, as consumed by the middleware: the accessors of
`tide::Request` that `lib.rs` reads.  `headers` models
`Request::header : &HeaderName -> Option<&HeaderValues>` as a function from
(lower-cased) header names to an optional list of values. -/
structure Request where
  method : String
  path : String
  query : Option String
  version : Option String
  headers : String → Option (List String)
  remote : Option String
  peerAddr : Option String

/-- Response body handle: declared length (`Body::len`, `None` when unknown)
and content type (`Body::mime`). -/
structure Body where
  len : Option Nat
  mime : String

/-- Outbound response: the accessors of `tide::Response` that `lib.rs` reads. -/
structure Response where
  status : Nat
  headers : String → Option (List String)
  body : Body

/-- The compiled format token type, `enum FormatText` (lib.rs 352-372).
Custom-field resolvers are carried as genuine Lean functions. -/
inductive FormatText where
  | Str (s : String)
  | Percent
  | RequestLine
  | RequestTime
  | ResponseStatus
  | ResponseSize
  | Time
  | TimeMillis
  | RemoteAddr
  | RealIPRemoteAddr
  | Method
  | Version
  | UrlPath
  | Query
  | RequestHeader (name : String)
  | ResponseHeader (name : String)
  | EnvironHeader (name : String)
  | CustomRequest (label : String) (f : Option (Request → String))
  | CustomResponse (label : String) (f : Option (Response → String))

/-- The regex name class `[A-Za-z0-9\-_]`. -/
def nameChar (c : Char) : Bool :=
  ('A' ≤ c && c ≤ 'Z') || ('a' ≤ c && c ≤ 'z') || ('0' ≤ c && c ≤ '9')
    || c = '-' || c = '_'

/-- The regex bare-directive class `[atPrUsbTDMVQ]`.  Note that `%` is not a
member: the source regex's class contains no percent sign. -/
def bareClass (c : Char) : Bool :=
  c = 'a' || c = 't' || c = 'P' || c = 'r' || c = 'U' || c = 's'
    || c = 'b' || c = 'T' || c = 'D' || c = 'M' || c = 'V' || c = 'Q'

/-- Greedy run of `nameChar`s, the regex sub-match `[A-Za-z0-9\-_]+` (its
greedy `+` never needs to backtrack here because `\x7d` is not a name
character, so the closing brace can only follow the maximal run). -/
def spanName : List Char → List Char × List Char
  | [] => ([], [])
  | c :: cs =>
    if nameChar c then
      let p := spanName cs
      (c :: p.1, p.2)
    else ([], c :: cs)

/-- Attempt the braced alternative `\x7b([A-Za-z0-9\-_]+)\x7d([aioe]|xi|xo)` at the
position just after a `%`.  Returns the captured name, the captured suffix
(group 3) and the remaining input.  The suffix alternation is ordered as in
the source: single letter from `[aioe]` first, then `xi`, then `xo`. -/
def tryBraced (cs : List Char) : Option (List Char × String × List Char) :=
  match cs with
  | [] => none
  | c :: cs1 =>
    if c = '\x7b' then
      let p := spanName cs1
      if p.1 = [] then none
      else
        match p.2 with
        | '\x7d' :: cs2 =>
          match cs2 with
          | d :: cs3 =>
            if d = 'a' || d = 'i' || d = 'o' || d = 'e' then
              some (p.1, String.singleton d, cs3)
            else if d = 'x' then
              match cs3 with
              | 'i' :: cs4 => some (p.1, "xi", cs4)
              | 'o' :: cs4 => some (p.1, "xo", cs4)
              | _ => none
            else none
          | [] => none
        | _ => none
    else none

/-- The bare-directive dispatch of `Format::new` (lib.rs 315-329), on the text
of capture group 1 (which is either a letter of `bareClass` or empty).  The
`"%"` arm is transcribed from the source even though group 1 can never equal
`"%"` (the class `[atPrUsbTDMVQ]` has no percent sign), making it dead code. -/
def bareToken (m : String) : FormatText :=
  if m = "%" then .Percent
  else if m = "a" then .RemoteAddr
  else if m = "t" then .RequestTime
  else if m = "r" then .RequestLine
  else if m = "s" then .ResponseStatus
  else if m = "b" then .ResponseSize
  else if m = "M" then .Method
  else if m = "V" then .Version
  else if m = "Q" then .Query
  else if m = "U" then .UrlPath
  else if m = "T" then .Time
  else if m = "D" then .TimeMillis
  else .Str m

/-- `HeaderName::try_from(key).unwrap()`: http-types validates that the name
is ASCII (always true for characters matched by `nameChar`, so the `unwrap`
never panics here) and stores it lower-cased. -/
def headerNameOf (nm : List Char) : String :=
  String.mk (nm.map Char.toLower)

/-- The braced-directive dispatch of `Format::new` (lib.rs 298-312).  `none`
models the `unreachable!()` panic reached when a braced `a`-directive names
anything but `r`. -/
def bracedToken (nm : List Char) (sfx : String) : Option FormatText :=
  if sfx = "a" then
    if nm = ['r'] then some .RealIPRemoteAddr else none
  else if sfx = "i" then some (.RequestHeader (headerNameOf nm))
  else if sfx = "o" then some (.ResponseHeader (headerNameOf nm))
  else if sfx = "e" then some (.EnvironHeader (String.mk nm))
  else if sfx = "xi" then some (.CustomRequest (String.mk nm) none)
  else if sfx = "xo" then some (.CustomResponse (String.mk nm) none)
  else none

/-- Push the pending literal run, mirroring `if idx != pos \x7b
results.push(FormatText::Str(..)) \x7d`: nothing is pushed for an empty run. -/
def flushStr (acc : List Char) : List FormatText :=
  if acc = [] then [] else [.Str (String.mk acc)]

/-- The scan loop of `Format::new`: `acc` holds the literal text accumulated
since the last directive match (the `idx..pos` gap), `toks` the tokens built
so far.  At each `%` the engine first tries the braced alternative, then the
optional bare class (an empty group-1 match when the next character is not in
the class — in that case only the `%` itself is consumed).  `fuel` makes the
recursion structural; each step consumes at least one character, so
`length + 1` fuel never runs out (`none` from fuel exhaustion is unreachable
from `Format.new`). -/
def scanAux : Nat → List Char → List FormatText → List Char → Option (List FormatText)
  | _, acc, toks, [] => some (toks ++ flushStr acc)
  | 0, _, _, _ :: _ => none
  | fuel + 1, acc, toks, c :: cs =>
    if c = '%' then
      let toks1 := toks ++ flushStr acc
      match tryBraced cs with
      | some (nm, sfx, rest) =>
        match bracedToken nm sfx with
        | some t => scanAux fuel [] (toks1 ++ [t]) rest
        | none => none
      | none =>
        match cs with
        | d :: rest =>
          if bareClass d then
            scanAux fuel [] (toks1 ++ [bareToken (String.singleton d)]) rest
          else
            scanAux fuel [] (toks1 ++ [bareToken ""]) (d :: rest)
        | [] => scanAux fuel [] (toks1 ++ [bareToken ""]) []
    else scanAux fuel (acc ++ [c]) toks cs

/-- `Format::new` (lib.rs 284-337): compile a format string into the token
sequence.  `none` models a panic (`unreachable!()`). -/
def Format.new (s : String) : Option (List FormatText) :=
  scanAux (s.toList.length + 1) [] [] s.toList

/-- `FormatText::render_request` (lib.rs 420-487): the request-phase
resolution of one token, in place.  `nowStr` is the string the request-start
`OffsetDateTime` formats to with `"%Y-%m-%dT%H:%M:%S"`.  Each resolving arm
produces a `Str`; the source's `_ => ()` arm leaves every other token
untouched. -/
def FormatText.render_request (nowStr : String) (req : Request) : FormatText → FormatText
  | .RequestLine =>
    .Str (match req.query with
      | some q =>
        req.method ++ " " ++ req.path ++ "?" ++ q ++ " " ++ req.version.getD "?"
      | none =>
        req.method ++ " " ++ req.path ++ " " ++ req.version.getD "?")
  | .Method => .Str req.method
  | .Version => .Str (req.version.getD "?")
  | .Query => .Str (req.query.getD "-")
  | .UrlPath => .Str req.path
  | .RequestTime => .Str nowStr
  | .RequestHeader name =>
    .Str (match req.headers name with
      | some val =>
        match val.head? with
        | some v => v
        | none => "_"
      | none => "-")
  | .RemoteAddr => .Str (match req.remote with | some addr => addr | none => "-")
  | .RealIPRemoteAddr => .Str (match req.peerAddr with | some remote => remote | none => "-")
  | .CustomRequest _label request_fn =>
    .Str (match request_fn with
      | some f => f req
      | none => "-")
  | t => t

/-- `FormatText::render_response` (lib.rs 489-514): the response-phase
resolution of one token, in place.  Note that, unlike the request phase, a
response header that is present with an empty value list resolves to `"-"`
(both inner branches of the source are `"-"`). -/
def FormatText.render_response (resp : Response) : FormatText → FormatText
  | .ResponseStatus => .Str (toString resp.status)
  | .ResponseHeader name =>
    .Str (match resp.headers name with
      | some val =>
        match val.head? with
        | some v => v
        | none => "-"
      | none => "-")
  | .CustomResponse _label response_fn =>
    .Str (match response_fn with
      | some f => f resp
      | none => "-")
  | t => t

/-- `FormatText::render` (lib.rs 516-545): final rendering of one token at
stream-disposal time, as the string it writes to the formatter.  `env`
models `std::env::var`.  `elapsedSec` and `elapsedMillis` stand for the
`"\x7b:.6\x7d"`-formatted elapsed seconds / milliseconds (floating-point
formatting of `now - entry_time`, not modelled further; no claim depends on
it).  Tokens not matched by the source (still-unresolved request/response
tokens) write nothing. -/
def FormatText.render (env : String → Option String) (size : Nat)
    (elapsedSec elapsedMillis : String) : FormatText → String
  | .Str s => s
  | .Percent => "%"
  | .ResponseSize => toString size
  | .Time => elapsedSec
  | .TimeMillis => elapsedMillis
  | .EnvironHeader name =>
    match env name with
    | some v => v
    | none => "-"
  | _ => ""

/-- The log line assembled by `PinnedDrop::drop for StreamLog`
(lib.rs 558-569): each token rendered in order into one string. -/
def renderLine (env : String → Option String) (size : Nat)
    (elapsedSec elapsedMillis : String) (fmt : List FormatText) : String :=
  String.join (fmt.map (FormatText.render env size elapsedSec elapsedMillis))

/-- The match guard of `custom_request_replace`'s `find` (lib.rs 149-151):
`matches!(ft, FormatText::CustomRequest(unit_label, _) if label == unit_label)`. -/
def isCustomRequestLabeled (label : String) : FormatText → Bool
  | .CustomRequest unit_label _ => label = unit_label
  | _ => false

/-- The match guard of `custom_response_replace`'s `find` (lib.rs 181-183). -/
def isCustomResponseLabeled (label : String) : FormatText → Bool
  | .CustomResponse unit_label _ => label = unit_label
  | _ => false

/-- `TracingMiddleware::custom_request_replace` (lib.rs 142-167): bind `f` to
the first `CustomRequest` token whose label equals `label`; when no token
matches, the template is returned unchanged and the non-fatal diagnostic
(`error!` about a nonexistent label) is reported — the returned `Bool` is
`true` exactly when that diagnostic fires. -/
def customRequestReplace (fmt : List FormatText) (label : String)
    (f : Request → String) : List FormatText × Bool :=
  match fmt with
  | [] => ([], true)
  | t :: ts =>
    match t with
    | .CustomRequest unit_label _ =>
      if label = unit_label then (.CustomRequest unit_label (some f) :: ts, false)
      else
        let r := customRequestReplace ts label f
        (t :: r.1, r.2)
    | _ =>
      let r := customRequestReplace ts label f
      (t :: r.1, r.2)

/-- `TracingMiddleware::custom_response_replace` (lib.rs 174-199), symmetric
to `customRequestReplace` for `CustomResponse` tokens. -/
def customResponseReplace (fmt : List FormatText) (label : String)
    (f : Response → String) : List FormatText × Bool :=
  match fmt with
  | [] => ([], true)
  | t :: ts =>
    match t with
    | .CustomResponse unit_label _ =>
      if label = unit_label then (.CustomResponse unit_label (some f) :: ts, false)
      else
        let r := customResponseReplace ts label f
        (t :: r.1, r.2)
    | _ =>
      let r := customResponseReplace ts label f
      (t :: r.1, r.2)

/-- `struct Inner` (lib.rs 95-100): the immutable post-setup configuration.
The `RegexSet` of exclusion patterns is abstracted as its `is_match`
predicate; the optional span generator is omitted (no claim depends on
spans). -/
structure Inner where
  format : List FormatText
  exclude : List String
  excludeRegex : String → Bool

/-- The exclusion test of `Middleware::handle` (lib.rs 233):
`self.inner.exclude.contains(path) || self.inner.exclude_regex.is_match(path)`. -/
def isExcluded (inner : Inner) (path : String) : Bool :=
  inner.exclude.contains path || inner.excludeRegex path

/-- The observable outcome of `Middleware::handle` for one request: the
response returned to the transport, and — when the body was replaced by the
byte-counting wrapper — the resolved per-request template carried by that
`StreamLog` (whose `drop` later emits the log line).  `streamLog = none`
means the body was not wrapped and no `StreamLog` exists for the request,
so nothing can ever emit its log line. -/
structure HandleOutcome where
  resp : Response
  streamLog : Option (List FormatText)

/-- `Middleware::handle for TracingMiddleware` (lib.rs 231-273).  On an
excluded path the downstream response is returned as-is.  Otherwise the
template is cloned and request-phase resolved, the handler runs, the clone is
response-phase resolved, and the body is replaced by one with the same
declared length (`body.len()`) and content type (`body.mime()`) reading
through the `StreamLog` wrapper that carries the resolved template. -/
def handle (inner : Inner) (nowStr : String) (request : Request)
    (next : Request → Response) : HandleOutcome :=
  if isExcluded inner request.path then
    { resp := next request, streamLog := none }
  else
    let format := inner.format.map (FormatText.render_request nowStr request)
    let resp := next request
    let format := format.map (FormatText.render_response resp)
    let body := resp.body
    let body_len := body.len
    let body_mime := body.mime
    let new_body : Body := { len := body_len, mime := body_mime }
    { resp := { resp with body := new_body }, streamLog := some format }

/-- Outcome of one completed body read, `std::io::Result<usize>`. -/
inductive ReadOutcome where
  | ok (n : Nat)
  | err
deriving DecidableEq

/-- Result of one `poll_read` call on the wrapper, `Poll<io::Result<usize>>`. -/
inductive PollRes where
  | pending
  | ready (r : ReadOutcome)
deriving DecidableEq

/-- One event in the lifetime of a `StreamLog` value: a `poll_read` call, or
its disposal (the single `drop` at the end of its lifetime). -/
inductive StreamEvent where
  | read (r : PollRes)
  | dispose
deriving DecidableEq

/-- The size update of `AsyncRead::poll_read for StreamLog` (lib.rs 575-586):
`*this.size += if let Ok(n) = size \x7b *n \x7d else \x7b 0 \x7d`, executed only when the
inner poll returns `Ready`; a `Pending` poll leaves the counter untouched. -/
def pollReadSize (size : Nat) : PollRes → Nat
  | .ready (.ok n) => size + n
  | .ready .err => size + 0
  | .pending => size

/-- The per-request mutable state of a `StreamLog` (lib.rs 548-556) together
with its lifetime bookkeeping: `size` is the running byte counter, `live`
whether the value has not yet been dropped, `emitted` how many times
`PinnedDrop::drop` has run (i.e. how many log lines this request emitted). -/
structure StreamLogState where
  size : Nat
  live : Bool
  emitted : Nat
deriving DecidableEq

/-- A fresh `StreamLog` as constructed in `handle` (lib.rs 260-266):
`size: 0`, not yet dropped, nothing emitted. -/
def initStream : StreamLogState :=
  { size := 0, live := true, emitted := 0 }

/-- One lifetime step of a `StreamLog`.  A read applies `poll_read`'s counter
update; `dispose` runs `PinnedDrop::drop`, which renders and emits the log
line exactly then.  Rust ownership delivers `drop` at most once and allows no
event at all on an already-dropped value, so on a dead state every event is a
no-op (this is what makes a hypothetical double-dispose harmless). -/
def streamStep (s : StreamLogState) : StreamEvent → StreamLogState
  | .read r => if s.live then { s with size := pollReadSize s.size r } else s
  | .dispose =>
    if s.live then { size := s.size, live := false, emitted := s.emitted + 1 } else s

/-- Run a `StreamLog` through a sequence of lifetime events. -/
def runStream (s : StreamLogState) (es : List StreamEvent) : StreamLogState :=
  es.foldl streamStep s

/-- The bytes `poll_read` counts over a sequence of poll results: the sum of
the byte counts of the successful `Ready(Ok(n))` completions. -/
def countedBytes (rs : List PollRes) : Nat :=
  (rs.filterMap (fun r =>
    match r with
    | .ready (.ok n) => some n
    | _ => none)).sum

/-- Number of log lines a request ever emits, given the outcome of `handle`
and the lifetime events of the wrapper stream (if one was created): emission
happens only in `StreamLog`'s `drop`, so a request without a `StreamLog`
emits nothing. -/
def handleEmissions (o : HandleOutcome) (es : List StreamEvent) : Nat :=
  match o.streamLog with
  | none => 0
  | some _ => (runStream initStream es).emitted

/-! Concrete fixtures used by the witness theorems. -/

/-- A concrete custom request resolver. -/
def reqF0 : Request → String :=
  fun _ => "custom-req"

/-- A concrete custom response resolver. -/
def respF0 : Response → String :=
  fun _ => "custom-resp"

/-- A concrete response body. -/
def body0 : Body :=
  { len := some 12, mime := "text/plain" }

/-- A concrete response without headers. -/
def resp0 : Response :=
  { status := 200, headers := fun _ => none, body := body0 }

/-- A response on which the header `x-empty` is present with an empty value
list. -/
def respHdrEmpty : Response :=
  { status := 200
    headers := fun n => if n = "x-empty" then some [] else none
    body := body0 }

/-- A concrete request for path `/index`. -/
def req0 : Request :=
  { method := "GET", path := "/index", query := none, version := none
    headers := fun _ => none, remote := none, peerAddr := none }

/-- A concrete request for path `/health`. -/
def reqHealth : Request :=
  { method := "GET", path := "/health", query := none, version := none
    headers := fun _ => none, remote := none, peerAddr := none }

/-- A concrete downstream handler. -/
def next0 : Request → Response :=
  fun _ => resp0

/-- A configuration that excludes exactly the path `/health`. -/
def innerExcl : Inner :=
  { format := [], exclude := ["/health"], excludeRegex := fun _ => false }

/-- A configuration that excludes nothing. -/
def innerPlain : Inner :=
  { format := [.UrlPath], exclude := [], excludeRegex := fun _ => false }

/-- A stream lifetime with one successful read followed by a double dispose
(scenario E: double-close). -/
def doubleDispose : List StreamEvent :=
  [.read (.ready (.ok 5)), .dispose, .dispose]

/-! Helper lemmas about the `StreamLog` lifetime machine. -/

theorem streamStep_dead {s : StreamLogState} (h : s.live = false) (e : StreamEvent) :
    streamStep s e = s := by
  cases e <;> simp [streamStep, h]

theorem runStream_dead {s : StreamLogState} (h : s.live = false) (es : List StreamEvent) :
    runStream s es = s := by
  induction es with
  | nil => rfl
  | cons e es ih => simp [runStream, List.foldl_cons, streamStep_dead h] at ih ⊢; exact ih

theorem runStream_live_emitted (es : List StreamEvent) :
    ∀ s : StreamLogState, s.live = true →
      (runStream s es).emitted
        = s.emitted + (if StreamEvent.dispose ∈ es then 1 else 0) := by
  induction es with
  | nil => intro s _; simp [runStream]
  | cons e es ih =>
    intro s hs
    cases e with
    | read r =>
      have h1 : runStream s (.read r :: es) = runStream { s with size := pollReadSize s.size r } es := by
        simp [runStream, List.foldl_cons, streamStep, hs]
      rw [h1, ih { s with size := pollReadSize s.size r } (by simp [hs])]
      simp [List.mem_cons]
    | dispose =>
      have h1 : runStream s (.dispose :: es)
          = runStream { size := s.size, live := false, emitted := s.emitted + 1 } es := by
        simp [runStream, List.foldl_cons, streamStep, hs]
      rw [h1, runStream_dead rfl]
      simp

theorem runStream_reads (rs : List PollRes) :
    ∀ s : StreamLogState, s.live = true →
      runStream s (rs.map StreamEvent.read) = { s with size := s.size + countedBytes rs } := by
  induction rs with
  | nil => intro s hs; simp [runStream, countedBytes]
  | cons r rs ih =>
    intro s hs
    have h1 : runStream s ((r :: rs).map StreamEvent.read)
        = runStream { s with size := pollReadSize s.size r } (rs.map StreamEvent.read) := by
      simp [runStream, List.foldl_cons, streamStep, hs]
    rw [h1, ih { s with size := pollReadSize s.size r } (by simp [hs])]
    cases r with
    | pending => simp [pollReadSize, countedBytes]
    | ready o =>
      cases o with
      | ok n => simp [pollReadSize, countedBytes]; omega
      | err => simp [pollReadSize, countedBytes]

/-- Claim C1: for every non-excluded request the fully-rendered log line is
emitted exactly once, triggered by the disposal of the wrapped body stream,
regardless of how the stream's lifetime ends; disposing the stream twice
never emits the line twice, and no request ever emits more than one line.
The first conjunct settles the `StreamLog` machine itself (its `drop` emits
exactly once over any lifetime, however it ends and however many dispose
events reach it); the remaining conjuncts lift this through `handle`: any
request emits at most one line, and a non-excluded request whose wrapper is
eventually disposed emits exactly one. -/
theorem log_emitted_exactly_once (es : List StreamEvent) (inner : Inner)
    (nowStr : String) (req : Request) (next : Request → Response) :
    (runStream initStream es).emitted
        = (if StreamEvent.dispose ∈ es then 1 else 0) ∧
    handleEmissions (handle inner nowStr req next) es ≤ 1 ∧
    (isExcluded inner req.path = false → StreamEvent.dispose ∈ es →
      handleEmissions (handle inner nowStr req next) es = 1) := by
  have hrun : (runStream initStream es).emitted
      = (if StreamEvent.dispose ∈ es then 1 else 0) := by
    rw [runStream_live_emitted es initStream rfl]; simp [initStream]
  refine ⟨hrun, ?_, ?_⟩
  · unfold handleEmissions
    cases h : (handle inner nowStr req next).streamLog with
    | none => simp
    | some fmt => simp [hrun]; split <;> omega
  · intro hex hes
    unfold handleEmissions
    have : (handle inner nowStr req next).streamLog
        = some ((inner.format.map (FormatText.render_request nowStr req)).map
            (FormatText.render_response (next req))) := by
      simp [handle, hex]
    rw [this]
    simp [hrun, hes]

/-- Witness for C1 at a concrete double-dispose lifetime (scenario E): one
successful read then two dispose events still emit exactly one line. -/
theorem log_emitted_exactly_once_witness :
    isExcluded innerPlain req0.path = false ∧
    StreamEvent.dispose ∈ doubleDispose ∧
    handleEmissions (handle innerPlain "now" req0 next0) doubleDispose = 1 := by
  refine ⟨rfl, by decide, ?_⟩
  exact (log_emitted_exactly_once doubleDispose innerPlain "now" req0 next0).2.2
    rfl (by decide)

/-- Claim C2: after any sequence of reads on the byte-counting wrapper the
running counter equals the sum of the byte counts of the reads that completed
successfully; reads that complete with an error (and reads that return
pending) leave the counter unchanged, so the final counted size is
independent of how successful reads interleave with failing ones. -/
theorem byte_counter_sums (rs : List PollRes) :
    (runStream initStream (rs.map StreamEvent.read)).size = countedBytes rs := by
  rw [runStream_reads rs initStream rfl]
  simp [initStream]

/-- Claim C3, counterexample: the claim asserts that in the response phase a
header that is present with an empty value list resolves to the sentinel
`"_"`.  On the code it resolves to `"-"` (both inner branches of
`render_response`'s `ResponseHeader` arm yield `"-"`, lib.rs 494-504): on the
concrete response `respHdrEmpty`, whose header `x-empty` is present with an
empty value list, the token does not resolve to `Str "_"`. -/
theorem response_header_empty_not_underscore :
    FormatText.render_response respHdrEmpty (.ResponseHeader "x-empty")
      ≠ FormatText.Str "_" := by
  intro h
  have h1 : FormatText.render_response respHdrEmpty (.ResponseHeader "x-empty")
      = FormatText.Str "-" := rfl
  rw [h1] at h
  have h2 : ("-" : String) = "_" := by injection h
  exact absurd h2 (by decide)

/-- Claim C3, amended: for every header-directive token, in the request phase
an absent header resolves to `"-"`, a present header with an empty value list
to `"_"`, and a present header with values to its first value's text; in the
response phase an absent header resolves to `"-"`, a present header with an
empty value list also to `"-"` (not `"_"`), and a present header with values
to its first value's text. -/
theorem header_directive_rules (name nowStr : String) (req : Request) (resp : Response) :
    FormatText.render_request nowStr req (.RequestHeader name)
      = .Str (match req.headers name with
          | none => "-"
          | some [] => "_"
          | some (v :: _) => v) ∧
    FormatText.render_response resp (.ResponseHeader name)
      = .Str (match resp.headers name with
          | none => "-"
          | some [] => "-"
          | some (v :: _) => v) := by
  constructor
  · rcases h : req.headers name with _ | (_ | ⟨v, vs⟩) <;>
      simp [FormatText.render_request, h]
  · rcases h : resp.headers name with _ | (_ | ⟨v, vs⟩) <;>
      simp [FormatText.render_response, h]

/-- Claim C4: for every request whose URL path is excluded (exact member of
the exclusion set or matched by the exclusion pattern set), the middleware
returns the downstream handler's response completely unmodified — the body is
not wrapped (`streamLog = none`), no template clone or token resolution is
performed (the outcome is literally `next req` with no resolved template) —
and no log record is ever emitted for the request, whatever the lifetime of
any stream would have been. -/
theorem excluded_passthrough (inner : Inner) (nowStr : String) (req : Request)
    (next : Request → Response) (h : isExcluded inner req.path = true) :
    handle inner nowStr req next = { resp := next req, streamLog := none } ∧
    ∀ es : List StreamEvent, handleEmissions (handle inner nowStr req next) es = 0 := by
  have h1 : handle inner nowStr req next = { resp := next req, streamLog := none } := by
    simp [handle, h]
  exact ⟨h1, fun es => by rw [h1]; rfl⟩

/-- Witness for C4: the configuration excluding `/health` passes the
downstream response through untouched and unwrapped, and emits nothing even
on a disposed lifetime. -/
theorem excluded_passthrough_witness :
    isExcluded innerExcl reqHealth.path = true ∧
    handle innerExcl "now" reqHealth next0 = { resp := next0 reqHealth, streamLog := none } ∧
    handleEmissions (handle innerExcl "now" reqHealth next0) [StreamEvent.dispose] = 0 :=
  ⟨rfl, (excluded_passthrough innerExcl "now" reqHealth next0 rfl).1,
    (excluded_passthrough innerExcl "now" reqHealth next0 rfl).2 [StreamEvent.dispose]⟩

/-- Claim C5, evaluation at the failing input: the claim (and the crate's own
doc comment ```%%`  The percent sign``, lib.rs 55) says the bare directive
`%%` produces a percent-literal token rendering `"%"`.  On the code, the scan
regex's bare class `[atPrUsbTDMVQ]` contains no `%`, so each `%` of `"%%"`
matches alone with an empty capture group, the dead `"%" => Percent` arm
never fires, and `"%%"` compiles to two empty literal tokens, which render as
`""`, not `"%"`. -/
theorem percent_percent_renders_empty :
    Format.new "%%" = some [FormatText.Str "", FormatText.Str ""] ∧
    renderLine (fun _ => none) 0 "0.000000" "0.000000"
      [FormatText.Str "", FormatText.Str ""] = "" ∧
    ("" : String) ≠ "%" :=
  ⟨rfl, rfl, by decide⟩

/-- Claim C6, counterexample: the claim asserts the rendered output of a
format containing `%Z` contains the literal text `%Z` unchanged, including
the `%` sign.  On the code, `"%Z"` compiles (without error) to an empty
literal followed by the literal `"Z"`: the `%` is consumed by the empty
directive match and dropped, so the rendered output is `"Z"`, which contains
no `%` at all and hence cannot contain `%Z`. -/
theorem unknown_directive_drops_percent :
    Format.new "%Z" = some [FormatText.Str "", FormatText.Str "Z"] ∧
    renderLine (fun _ => none) 0 "0.000000" "0.000000"
      [FormatText.Str "", FormatText.Str "Z"] = "Z" ∧
    ¬ '%' ∈ "Z".toList :=
  ⟨rfl, rfl, by decide⟩

/-- Request-phase resolution is idempotent on a single token — every
resolving arm produces a `Str`, and `Str` (like every other already-resolved
or response-phase token) is left untouched by the catch-all arm. -/
theorem render_request_once (nowStr : String) (req : Request) (t : FormatText) :
    FormatText.render_request nowStr req (FormatText.render_request nowStr req t)
      = FormatText.render_request nowStr req t := by
  cases t <;> rfl

/-- Claim C7: for every token sequence and every request, applying the
request-phase resolver to each token twice yields exactly the same token
sequence as applying it once. -/
theorem render_request_idempotent (nowStr : String) (req : Request)
    (ts : List FormatText) :
    (ts.map (FormatText.render_request nowStr req)).map
        (FormatText.render_request nowStr req)
      = ts.map (FormatText.render_request nowStr req) := by
  induction ts with
  | nil => rfl
  | cons t ts ih => simp only [List.map_cons, render_request_once, ih]

/-- Claim C9: wrapping the response body in the byte-counting stream
preserves the response's declared body length and content type: the `len` and
`mime` of the replacement body equal those of the body produced by the
downstream handler. -/
theorem wrap_preserves_len_mime (inner : Inner) (nowStr : String) (req : Request)
    (next : Request → Response) (h : isExcluded inner req.path = false) :
    (handle inner nowStr req next).resp.body.len = (next req).body.len ∧
    (handle inner nowStr req next).resp.body.mime = (next req).body.mime := by
  simp [handle, h]

/-- Witness for C9 at a concrete non-excluded request. -/
theorem wrap_preserves_len_mime_witness :
    isExcluded innerPlain req0.path = false ∧
    ((handle innerPlain "now" req0 next0).resp.body.len = (next0 req0).body.len ∧
      (handle innerPlain "now" req0 next0).resp.body.mime = (next0 req0).body.mime) :=
  ⟨rfl, wrap_preserves_len_mime innerPlain "now" req0 next0 rfl⟩

/-! Helper lemmas for the custom-field registry (claim C8). -/

theorem customRequestReplace_miss (label : String) (f : Request → String) :
    ∀ fmt : List FormatText,
      (∀ t ∈ fmt, isCustomRequestLabeled label t = false) →
      customRequestReplace fmt label f = (fmt, true) := by
  intro fmt
  induction fmt with
  | nil => intro _; rfl
  | cons t ts ih =>
    intro h
    have ht := h t (List.mem_cons_self t ts)
    have hts := ih fun u hu => h u (List.mem_cons_of_mem t hu)
    cases t with
    | CustomRequest l g =>
      have hl : ¬ label = l := by
        simpa [isCustomRequestLabeled] using ht
      simp [customRequestReplace, hl, hts]
    | _ => simp_all [customRequestReplace]

theorem customRequestReplace_hit (label : String) (f : Request → String)
    (g : Option (Request → String)) (post : List FormatText) :
    ∀ pre : List FormatText,
      (∀ t ∈ pre, isCustomRequestLabeled label t = false) →
      customRequestReplace (pre ++ .CustomRequest label g :: post) label f
        = (pre ++ .CustomRequest label (some f) :: post, false) := by
  intro pre
  induction pre with
  | nil => intro _; simp [customRequestReplace]
  | cons t ts ih =>
    intro h
    have ht := h t (List.mem_cons_self t ts)
    have hts := ih fun u hu => h u (List.mem_cons_of_mem t hu)
    cases t with
    | CustomRequest l g2 =>
      have hl : ¬ label = l := by
        simpa [isCustomRequestLabeled] using ht
      simp [customRequestReplace, hl, hts]
    | _ => simp_all [customRequestReplace]

theorem customResponseReplace_miss (label : String) (f : Response → String) :
    ∀ fmt : List FormatText,
      (∀ t ∈ fmt, isCustomResponseLabeled label t = false) →
      customResponseReplace fmt label f = (fmt, true) := by
  intro fmt
  induction fmt with
  | nil => intro _; rfl
  | cons t ts ih =>
    intro h
    have ht := h t (List.mem_cons_self t ts)
    have hts := ih fun u hu => h u (List.mem_cons_of_mem t hu)
    cases t with
    | CustomResponse l g =>
      have hl : ¬ label = l := by
        simpa [isCustomResponseLabeled] using ht
      simp [customResponseReplace, hl, hts]
    | _ => simp_all [customResponseReplace]

theorem customResponseReplace_hit (label : String) (f : Response → String)
    (g : Option (Response → String)) (post : List FormatText) :
    ∀ pre : List FormatText,
      (∀ t ∈ pre, isCustomResponseLabeled label t = false) →
      customResponseReplace (pre ++ .CustomResponse label g :: post) label f
        = (pre ++ .CustomResponse label (some f) :: post, false) := by
  intro pre
  induction pre with
  | nil => intro _; simp [customResponseReplace]
  | cons t ts ih =>
    intro h
    have ht := h t (List.mem_cons_self t ts)
    have hts := ih fun u hu => h u (List.mem_cons_of_mem t hu)
    cases t with
    | CustomResponse l g2 =>
      have hl : ¬ label = l := by
        simpa [isCustomResponseLabeled] using ht
      simp [customResponseReplace, hl, hts]
    | _ => simp_all [customResponseReplace]

/-- Claim C8: registering a custom request (resp. response) resolver for a
label binds the resolver to the first custom-request-field (resp.
custom-response-field) token whose label matches, replacing any previously
bound resolver for that label; when no such token exists the call returns the
template completely unchanged and only reports the non-fatal diagnostic
(second component `true`). -/
theorem custom_replace_spec (label : String) (f : Request → String)
    (g : Response → String) :
    (∀ fmt : List FormatText,
      (∀ t ∈ fmt, isCustomRequestLabeled label t = false) →
      customRequestReplace fmt label f = (fmt, true)) ∧
    (∀ (pre post : List FormatText) (g0 : Option (Request → String)),
      (∀ t ∈ pre, isCustomRequestLabeled label t = false) →
      customRequestReplace (pre ++ .CustomRequest label g0 :: post) label f
        = (pre ++ .CustomRequest label (some f) :: post, false)) ∧
    (∀ fmt : List FormatText,
      (∀ t ∈ fmt, isCustomResponseLabeled label t = false) →
      customResponseReplace fmt label g = (fmt, true)) ∧
    (∀ (pre post : List FormatText) (g0 : Option (Response → String)),
      (∀ t ∈ pre, isCustomResponseLabeled label t = false) →
      customResponseReplace (pre ++ .CustomResponse label g0 :: post) label g
        = (pre ++ .CustomResponse label (some g) :: post, false)) :=
  ⟨customRequestReplace_miss label f,
    fun pre post g0 h => customRequestReplace_hit label f g0 post pre h,
    customResponseReplace_miss label g,
    fun pre post g0 h => customResponseReplace_hit label g g0 post pre h⟩

/-- Witness for C8 at concrete templates: a matching label is bound (also
when a previous resolver was bound), a missing label leaves the template
unchanged and reports the diagnostic. -/
theorem custom_replace_spec_witness :
    customRequestReplace [FormatText.Str "x", FormatText.CustomRequest "FOO" none]
        "FOO" reqF0
      = ([FormatText.Str "x", FormatText.CustomRequest "FOO" (some reqF0)], false) ∧
    customRequestReplace [FormatText.Str "x"] "FOO" reqF0
      = ([FormatText.Str "x"], true) ∧
    customResponseReplace [FormatText.CustomResponse "BAR" (some respF0)] "BAR" respF0
      = ([FormatText.CustomResponse "BAR" (some respF0)], false) ∧
    customResponseReplace [] "BAR" respF0 = ([], true) := by
  refine ⟨?_, ?_, ?_, ?_⟩
  · exact (custom_replace_spec "FOO" reqF0 respF0).2.1 [FormatText.Str "x"] [] none
      (by intro t ht; simp at ht; subst ht; rfl)
  · exact (custom_replace_spec "FOO" reqF0 respF0).1 [FormatText.Str "x"]
      (by intro t ht; simp at ht; subst ht; rfl)
  · exact (custom_replace_spec "BAR" reqF0 respF0).2.2.2 [] [] (some respF0)
      (by intro t ht; simp at ht)
  · exact (custom_replace_spec "BAR" reqF0 respF0).2.2.1 []
      (by intro t ht; simp at ht)

/-! Helper lemmas about the format-string scanner. -/

/-- The greedy name run takes exactly a block of name characters delimited by
a closing brace (which is not a name character). -/
theorem spanName_exact (xs : List Char) (zs : List Char)
    (h : ∀ c ∈ xs, nameChar c = true) :
    spanName (xs ++ '\x7d' :: zs) = (xs, '\x7d' :: zs) := by
  induction xs with
  | nil =>
    have hb : nameChar '\x7d' = false := by decide
    simp [spanName, hb]
  | cons x xs ih =>
    have hx := h x (List.mem_cons_self x xs)
    have hxs := ih fun c hc => h c (List.mem_cons_of_mem x hc)
    simp [spanName, hx, hxs]

/-- The scanner copies a directive-free (percent-free) block of input into
the pending literal accumulator, one character per fuel unit. -/
theorem scanAux_skip (pre : List Char) :
    ∀ (fuel : Nat) (acc : List Char) (toks : List FormatText) (cs : List Char),
      (∀ c ∈ pre, c ≠ '%') →
      scanAux (pre.length + fuel) acc toks (pre ++ cs)
        = scanAux fuel (acc ++ pre) toks cs := by
  induction pre with
  | nil => intro fuel acc toks cs _; simp
  | cons p ps ih =>
    intro fuel acc toks cs h
    have hp : p ≠ '%' := h p (List.mem_cons_self p ps)
    have hps := fun c hc => h c (List.mem_cons_of_mem p hc)
    have hlen : (p :: ps).length + fuel = (ps.length + fuel) + 1 := by
      simp [List.length_cons]; omega
    rw [hlen]
    show scanAux ((ps.length + fuel) + 1) acc toks (p :: (ps ++ cs)) = _
    simp only [scanAux]
    rw [if_neg hp, ih fuel (acc ++ [p]) toks cs hps]
    simp [List.append_assoc]

/-- Claim C6, amended: compiling `%c` for any character `c` outside the bare
directive class (and distinct from `%` itself) succeeds — fail-soft, never a
compile error — but the `%` sign is consumed by the empty directive match and
compiled to an empty literal, while `c` survives as trailing literal text: the
rendered output is just `c`, without the `%`. -/
theorem unknown_directive_amended (c : Char) (h1 : bareClass c = false)
    (h2 : c ≠ '%') :
    Format.new (String.mk ['%', c])
      = some [FormatText.Str "", FormatText.Str (String.mk [c])] ∧
    renderLine (fun _ => none) 0 "0.000000" "0.000000"
      [FormatText.Str "", FormatText.Str (String.mk [c])] = String.mk [c] := by
  constructor
  · show scanAux (2 + 1) [] [] ('%' :: [c]) = _
    have htb : tryBraced [c] = none := by
      by_cases hc : c = '\x7b'
      · subst hc; rfl
      · simp [tryBraced, hc]
    have hb0 : bareToken "" = FormatText.Str "" := rfl
    simp [scanAux, htb, hb0, flushStr, h1, h2]
  · rfl

/-- Witness for C6's amended claim at `c = 'Z'` (scenario C's input `%Z`):
it compiles without error and renders `Z` alone. -/
theorem unknown_directive_amended_witness :
    bareClass 'Z' = false ∧ 'Z' ≠ '%' ∧
    (Format.new (String.mk ['%', 'Z'])
        = some [FormatText.Str "", FormatText.Str (String.mk ['Z'])] ∧
      renderLine (fun _ => none) 0 "0.000000" "0.000000"
        [FormatText.Str "", FormatText.Str (String.mk ['Z'])] = String.mk ['Z']) :=
  ⟨by decide, by decide, unknown_directive_amended 'Z' (by decide) (by decide)⟩

/-- Claim C10: any format string in which a braced `a`-directive
`%(NAME)a` (braces written here as parentheses) appears — after any
percent-free run of leading text and with any trailing text — makes
compilation panic via the `unreachable!()` branch (`none` in this model)
whenever NAME is a nonempty run of name-class characters other than exactly
`r`; compilation is total only under the precondition that every braced
`a`-directive uses the name `r`. -/
theorem braced_a_panics (pre name rest : List Char)
    (hpre : ∀ c ∈ pre, c ≠ '%') (h1 : name ≠ [])
    (h2 : ∀ c ∈ name, nameChar c = true) (h3 : name ≠ ['r']) :
    Format.new (String.mk (pre ++ '%' :: '\x7b' :: (name ++ '\x7d' :: 'a' :: rest)))
      = none := by
  show scanAux ((pre ++ '%' :: '\x7b' :: (name ++ '\x7d' :: 'a' :: rest)).length + 1)
      [] [] (pre ++ '%' :: '\x7b' :: (name ++ '\x7d' :: 'a' :: rest)) = none
  have hlen : (pre ++ '%' :: '\x7b' :: (name ++ '\x7d' :: 'a' :: rest)).length + 1
      = pre.length + (('%' :: '\x7b' :: (name ++ '\x7d' :: 'a' :: rest)).length + 1) := by
    simp [List.length_append]
    omega
  rw [hlen,
    scanAux_skip pre (('%' :: '\x7b' :: (name ++ '\x7d' :: 'a' :: rest)).length + 1)
      [] [] ('%' :: '\x7b' :: (name ++ '\x7d' :: 'a' :: rest)) hpre]
  have htb : tryBraced ('\x7b' :: (name ++ '\x7d' :: 'a' :: rest))
      = some (name, String.singleton 'a', rest) := by
    simp only [tryBraced]
    rw [spanName_exact name ('a' :: rest) h2]
    simp [h1]
  have hbt : bracedToken name (String.singleton 'a') = none := by
    have hs : String.singleton 'a' = "a" := rfl
    rw [hs]
    simp [bracedToken, h3]
  simp [scanAux, htb, hbt]

/-- Witness for C10 at the concrete format string `%(FOO)a` (with braces):
compilation panics (`none`). -/
theorem braced_a_panics_witness :
    Format.new "%\x7bFOO\x7da" = none :=
  braced_a_panics [] ['F', 'O', 'O'] [] (by decide) (by decide) (by decide) (by decide)

end TideTracing
